import Mathlib

/-!
Verification of the `n8n-nodes-meta-tools` Meta Post node.

The development shallowly embeds the publish orchestration engine of the
node: caption formatting (`prepareCaption`), the container publish retry
loop (`publishIgContainerWithRetry`), the container status poll loop
(`pollIgContainer`), the image and video orchestrators (`handleImage`,
`handleVideo`), the ephemeral range-serving endpoint (`parseRange`,
`serveBuffer`) and the shared-listener interceptor (`installInterceptor`).

Strings manipulated character-by-character (captions) are modelled as
`List Char`; opaque message strings flowing through the orchestrators are
modelled as Lean `String`s.  Each remote HTTP call is modelled by an
oracle value (or an oracle function, for calls inside loops) supplied in
an environment record, and each orchestrator returns its result together
with a trace of the observable effects the claims talk about (delete
calls, transcoder invocations, register/close events, slept delays).
-/

/-! ## Caption formatting (`prepareCaption`, part_000 lines 59-65) -/

/-- `true` iff the list contains three consecutive newline characters
(the strings matched by the source regex `\n{3,}`). -/
def hasTriple : List Char → Bool
  | c1 :: c2 :: c3 :: rest =>
    (decide (c1 = '\n') && decide (c2 = '\n') && decide (c3 = '\n'))
      || hasTriple (c2 :: c3 :: rest)
  | _ => false

/-- Accumulator worker for `collapseNewlines`: `n` counts the pending run
of newline characters already consumed; a maximal run of `n` newlines is
emitted as `min n 2` newlines, which is exactly the effect of the source
replacement `replace(/\n{3,}/g, '\n\n')`. -/
def collapseGo : Nat → List Char → List Char
  | n, [] => List.replicate (min n 2) '\n'
  | n, c :: rest =>
    if c = '\n' then collapseGo (n + 1) rest
    else List.replicate (min n 2) '\n' ++ c :: collapseGo 0 rest

/-- `result.replace(/\n{3,}/g, '\n\n')` of part_000 line 64: every maximal
run of 3 or more newlines is replaced by exactly two newlines. -/
def collapseNewlines (l : List Char) : List Char := collapseGo 0 l

/-- `prepareCaption` (part_000 lines 59-65): append the hash suffix when
it is non-empty (JS truthiness of a string) and the caption does not
already end with it, then collapse newline runs. -/
def prepareCaption (caption hashSuffix : List Char) : List Char :=
  let result :=
    if hashSuffix ≠ [] ∧ hashSuffix.isSuffixOf caption = false
    then caption ++ '\n' :: hashSuffix
    else caption
  collapseNewlines result

example : collapseNewlines ('a' :: '\n' :: '\n' :: '\n' :: '\n' :: ['b'])
    = 'a' :: '\n' :: '\n' :: ['b'] := by decide

example : prepareCaption ('h' :: ['i']) ('#' :: ['x'])
    = 'h' :: 'i' :: '\n' :: '#' :: ['x'] := by decide

/-! ### Properties of `hasTriple` and `collapseGo` -/

theorem hasTriple_cons {c : Char} (t : List Char) (h : c ≠ '\n') :
    hasTriple (c :: t) = hasTriple t := by
  match t with
  | [] => rfl
  | [b] => rfl
  | b :: d :: t3 => simp [hasTriple, h]

theorem hasTriple_replicate_append {k : Nat} (t : List Char) (h : 3 ≤ k) :
    hasTriple (List.replicate k '\n' ++ t) = true := by
  obtain ⟨m, rfl⟩ : ∃ m, k = 3 + m := ⟨k - 3, by omega⟩
  have hr : List.replicate (3 + m) '\n' ++ t
      = '\n' :: '\n' :: '\n' :: (List.replicate m '\n' ++ t) := by
    simp [List.replicate_add, List.replicate_succ]
  rw [hr]
  simp [hasTriple]

theorem hasTriple_one_pad {c : Char} (t : List Char) (hc : c ≠ '\n') :
    hasTriple ('\n' :: c :: t) = hasTriple t := by
  match t with
  | [] => rfl
  | d :: t2 =>
    have h1 : hasTriple ('\n' :: c :: d :: t2)
        = ((decide (('\n' : Char) = '\n') && decide (c = '\n') && decide (d = '\n'))
          || hasTriple (c :: d :: t2)) := rfl
    rw [h1, hasTriple_cons (d :: t2) hc]
    simp [hc]

theorem hasTriple_two_pad {c : Char} (t : List Char) (hc : c ≠ '\n') :
    hasTriple ('\n' :: '\n' :: c :: t) = hasTriple t := by
  have h1 : hasTriple ('\n' :: '\n' :: c :: t)
      = ((decide (('\n' : Char) = '\n') && decide (('\n' : Char) = '\n') && decide (c = '\n'))
        || hasTriple ('\n' :: c :: t)) := rfl
  rw [h1, hasTriple_one_pad t hc]
  simp [hc]

theorem hasTriple_pad {k : Nat} {c : Char} (t : List Char) (hk : k ≤ 2) (hc : c ≠ '\n') :
    hasTriple (List.replicate k '\n' ++ c :: t) = hasTriple t := by
  interval_cases k
  · simpa using hasTriple_cons t hc
  · simpa [List.replicate_succ] using hasTriple_one_pad t hc
  · simpa [List.replicate_succ] using hasTriple_two_pad t hc

theorem hasTriple_short {l : List Char} (h : l.length ≤ 2) : hasTriple l = false := by
  match l with
  | [] => rfl
  | [a] => rfl
  | [a, b] => rfl
  | a :: b :: c :: t => simp at h

theorem collapseGo_nl (n : Nat) (rest : List Char) :
    collapseGo n ('\n' :: rest) = collapseGo (n + 1) rest := by
  simp [collapseGo]

theorem collapseGo_other {c : Char} (n : Nat) (rest : List Char) (hc : c ≠ '\n') :
    collapseGo n (c :: rest)
      = List.replicate (min n 2) '\n' ++ c :: collapseGo 0 rest := by
  simp [collapseGo, hc]

theorem collapseGo_hasTriple (l : List Char) : ∀ n, hasTriple (collapseGo n l) = false := by
  induction l with
  | nil =>
    intro n
    apply hasTriple_short
    simp [collapseGo]
  | cons c rest ih =>
    intro n
    by_cases hc : c = '\n'
    · subst hc
      simp only [collapseGo, if_pos rfl]
      exact ih (n + 1)
    · simp only [collapseGo, if_neg hc]
      rw [hasTriple_pad _ (Nat.min_le_right n 2) hc]
      exact ih 0

theorem collapseGo_eq_self {l : List Char} : ∀ {n}, n ≤ 2 →
    hasTriple (List.replicate n '\n' ++ l) = false →
    collapseGo n l = List.replicate n '\n' ++ l := by
  induction l with
  | nil =>
    intro n hn h
    simp [collapseGo, Nat.min_eq_left hn]
  | cons c rest ih =>
    intro n hn h
    by_cases hc : c = '\n'
    · subst hc
      have hrw : List.replicate n '\n' ++ '\n' :: rest
          = List.replicate (n + 1) '\n' ++ rest := by
        rw [List.replicate_succ']; simp
      have hn1 : n + 1 ≤ 2 := by
        by_contra hgt
        rw [hrw, hasTriple_replicate_append rest (by omega)] at h
        cases h
      rw [collapseGo_nl, hrw]
      exact ih hn1 (by rw [← hrw]; exact h)
    · simp only [collapseGo, if_neg hc]
      have h2 : hasTriple rest = false := by
        rw [hasTriple_pad rest hn hc] at h
        exact h
      have h3 : collapseGo 0 rest = rest := by
        have := ih (n := 0) (by omega) (by simpa using h2)
        simpa using this
      rw [Nat.min_eq_left hn, h3]

theorem suffix_of_replicate {s : List Char} {n : Nat} {a : Char}
    (h : s <:+ List.replicate n a) : ∃ k, k ≤ n ∧ s = List.replicate k a := by
  refine ⟨s.length, ?_, ?_⟩
  · obtain ⟨t, ht⟩ := h
    have := congrArg List.length ht
    simp at this
    omega
  · rw [List.eq_replicate_iff]
    exact ⟨rfl, fun b hb => List.eq_of_mem_replicate (h.subset hb)⟩

theorem replicate_suffix {k m : Nat} {a : Char} (h : k ≤ m) :
    List.replicate k a <:+ List.replicate m a :=
  ⟨List.replicate (m - k) a, by rw [← List.replicate_add]; congr 1; omega⟩

theorem suffix_split_pad {s t : List Char} {a : Char} :
    ∀ {n : Nat}, s <:+ (List.replicate n a ++ t) →
    s <:+ t ∨ ∃ k, k ≤ n ∧ s = List.replicate k a ++ t := by
  intro n
  induction n with
  | zero => intro h; left; simpa using h
  | succ n ih =>
    intro h
    rw [List.replicate_succ, List.cons_append, List.suffix_cons_iff] at h
    rcases h with h | h
    · right
      exact ⟨n + 1, le_refl _, by rw [List.replicate_succ, List.cons_append]; exact h⟩
    · rcases ih h with h' | ⟨k, hk, rfl⟩
      · left; exact h'
      · right; exact ⟨k, by omega, rfl⟩

theorem collapseGo_suffix {s : List Char} (hs : hasTriple s = false) :
    ∀ (l : List Char) (n : Nat), s <:+ (List.replicate n '\n' ++ l) →
    s <:+ collapseGo n l := by
  intro l
  induction l with
  | nil =>
    intro n h
    rw [List.append_nil] at h
    obtain ⟨k, hk, rfl⟩ := suffix_of_replicate h
    have hk2 : k ≤ 2 := by
      by_contra hgt
      have h3 := hasTriple_replicate_append (k := k) [] (by omega)
      rw [List.append_nil] at h3
      rw [h3] at hs
      cases hs
    simp only [collapseGo]
    exact replicate_suffix (by omega)
  | cons c rest ih =>
    intro n h
    by_cases hc : c = '\n'
    · subst hc
      simp only [collapseGo, if_pos rfl]
      apply ih (n + 1)
      rwa [show List.replicate (n + 1) '\n' ++ rest = List.replicate n '\n' ++ '\n' :: rest
        from by rw [List.replicate_succ']; simp]
    · simp only [collapseGo, if_neg hc]
      rcases suffix_split_pad (n := n) h with h' | ⟨k, hk, rfl⟩
      · rw [List.suffix_cons_iff] at h'
        rcases h' with rfl | h''
        · have hr : hasTriple rest = false := by
            rw [hasTriple_cons rest hc] at hs
            exact hs
          have hcr : collapseGo 0 rest = rest := by
            have := collapseGo_eq_self (l := rest) (n := 0) (by omega) (by simpa using hr)
            simpa using this
          rw [hcr]
          exact List.suffix_append _ _
        · have h3 : s <:+ collapseGo 0 rest := ih 0 (by simpa using h'')
          exact h3.trans ((List.suffix_cons c _).trans (List.suffix_append _ _))
      · have hk2 : k ≤ 2 := by
          by_contra hgt
          rw [hasTriple_replicate_append (c :: rest) (by omega)] at hs
          cases hs
        have hr : hasTriple rest = false := by
          rw [hasTriple_pad rest hk2 hc] at hs
          exact hs
        have hcr : collapseGo 0 rest = rest := by
          have := collapseGo_eq_self (l := rest) (n := 0) (by omega) (by simpa using hr)
          simpa using this
        rw [hcr]
        obtain ⟨m, hm⟩ : ∃ m, min n 2 = m + k := ⟨min n 2 - k, by omega⟩
        rw [hm, List.replicate_add, List.append_assoc]
        exact List.suffix_append _ _

theorem hasTriple_collapseNewlines (l : List Char) :
    hasTriple (collapseNewlines l) = false :=
  collapseGo_hasTriple l 0

theorem collapseNewlines_eq_self {l : List Char} (h : hasTriple l = false) :
    collapseNewlines l = l := by
  have := collapseGo_eq_self (l := l) (n := 0) (by omega) (by simpa using h)
  simpa [collapseNewlines] using this

theorem suffix_collapseNewlines {s l : List Char} (hs : hasTriple s = false)
    (h : s <:+ l) : s <:+ collapseNewlines l :=
  collapseGo_suffix hs l 0 (by simpa using h)

theorem prepareCaption_hasTriple (c s : List Char) :
    hasTriple (prepareCaption c s) = false := by
  simp only [prepareCaption]
  exact hasTriple_collapseNewlines _

theorem prepareCaption_suffix {c s : List Char} (hne : s ≠ []) (hs : hasTriple s = false) :
    s <:+ prepareCaption c s := by
  simp only [prepareCaption]
  cases hsuf : s.isSuffixOf c with
  | true =>
    rw [if_neg (by simp [hsuf])]
    exact suffix_collapseNewlines hs (List.isSuffixOf_iff_suffix.mp hsuf)
  | false =>
    rw [if_pos ⟨hne, rfl⟩]
    apply suffix_collapseNewlines hs
    exact ⟨c ++ ['\n'], by simp⟩

/-! ### Claims C7 and C8 -/

/-- Claim C7 (amended): for all (caption, suffix), `prepareCaption` first
appends the suffix (separated by a newline) when the caption does not
already end with it, then collapses every run of 3+ newlines to exactly 2;
the result never contains 3 or more consecutive newlines, and the result
ends with the suffix whenever the suffix is non-empty AND the suffix
itself contains no run of 3 or more consecutive newlines.  (The original
claim, without the last condition on the suffix, is refuted by
`claim_C7_counterexample`: collapsing can rewrite a newline run inside the
appended suffix.) -/
theorem claim_C7_caption_formatting (caption hashSuffix : List Char) :
    hasTriple (prepareCaption caption hashSuffix) = false ∧
    (hashSuffix ≠ [] → hasTriple hashSuffix = false →
      hashSuffix <:+ prepareCaption caption hashSuffix) :=
  ⟨prepareCaption_hasTriple caption hashSuffix,
   fun hne hs => prepareCaption_suffix hne hs⟩

/-- Claim C7 counterexample: the suffix `"a\n\n\nb"` is non-empty, yet the
formatted caption does not end with it — the collapse step rewrites the
`\n\n\n` run inside the appended suffix. -/
theorem claim_C7_counterexample :
    (['a', '\n', '\n', '\n', 'b'] : List Char) ≠ [] ∧
    (['a', '\n', '\n', '\n', 'b'] : List Char).isSuffixOf
      (prepareCaption [] ['a', '\n', '\n', '\n', 'b']) = false := by
  decide

/-- Claim C7 witness: a concrete caption/suffix pair on which both
conjuncts of the amended claim evaluate. -/
theorem claim_C7_witness :
    ('#' :: ['x']) <:+ prepareCaption ('h' :: ['i']) ('#' :: ['x']) :=
  (claim_C7_caption_formatting ('h' :: ['i']) ('#' :: ['x'])).2
    (by decide) (by decide)

/-- Claim C8 (amended): `prepareCaption` is idempotent under
re-application with the same suffix, provided the suffix contains no run
of 3 or more consecutive newlines (the original unconditional claim is
refuted by `claim_C8_counterexample`). -/
theorem claim_C8_idempotent (caption hashSuffix : List Char)
    (hs : hasTriple hashSuffix = false) :
    prepareCaption (prepareCaption caption hashSuffix) hashSuffix
      = prepareCaption caption hashSuffix := by
  have key : ∀ r : List Char, hashSuffix.isSuffixOf r = true →
      hasTriple r = false → prepareCaption r hashSuffix = r := by
    intro r h1 h2
    simp only [prepareCaption]
    rw [if_neg (by simp [h1])]
    exact collapseNewlines_eq_self h2
  by_cases hne : hashSuffix = []
  · subst hne
    simp only [prepareCaption]
    rw [if_neg (by simp), if_neg (by simp)]
    exact collapseNewlines_eq_self (hasTriple_collapseNewlines _)
  · exact key _ (List.isSuffixOf_iff_suffix.mpr (prepareCaption_suffix hne hs))
      (prepareCaption_hasTriple caption hashSuffix)

/-- Claim C8 counterexample: with the suffix `"a\n\n\nb"` (which contains
a 3-newline run) re-applying `prepareCaption` changes the result again,
so the unconditional idempotence claim is false. -/
theorem claim_C8_counterexample :
    prepareCaption (prepareCaption [] ['a', '\n', '\n', '\n', 'b'])
        ['a', '\n', '\n', '\n', 'b']
      ≠ prepareCaption [] ['a', '\n', '\n', '\n', 'b'] := by
  decide

/-- Claim C8 witness: idempotence at a concrete triple-free suffix. -/
theorem claim_C8_witness :
    prepareCaption (prepareCaption ('h' :: ['i']) ('#' :: ['x'])) ('#' :: ['x'])
      = prepareCaption ('h' :: ['i']) ('#' :: ['x']) :=
  claim_C8_idempotent ('h' :: ['i']) ('#' :: ['x']) (by decide)

/-! ## Graph API responses and `formatIgApiError` (part_000 lines 19-27)

A `FullResponse` models the `returnFullResponse` shape the node inspects:
HTTP status, the parsed body (optional `id`, optional structured `error`),
the `www-authenticate` response header (empty string when absent, as in
the source's `|| ''`), and `jsonBody`, an uninterpreted rendering of
`JSON.stringify(resp.body)` carried by the environment. -/

structure IgError where
  code : Option Nat
  error_subcode : Option Nat
  error_user_msg : Option String
  message : Option String
deriving DecidableEq

structure IgBody where
  id : Option String
  error : Option IgError
deriving DecidableEq

structure FullResponse where
  statusCode : Nat
  body : Option IgBody
  wwwAuth : String
  jsonBody : String
deriving DecidableEq

/-- JS string truthiness: a string is falsy exactly when it is empty. -/
def truthyStr : Option String → Option String
  | none => none
  | some s => if s = "" then none else some s

/-- JS number truthiness: `0` is falsy. -/
def truthyNat : Option Nat → Option Nat
  | none => none
  | some n => if n = 0 then none else some n

/-- `formatIgApiError` (part_000 lines 19-27). -/
def formatIgApiError (resp : FullResponse) : String :=
  match resp.body with
  | none => "HTTP " ++ toString resp.statusCode ++ ": " ++ resp.jsonBody
  | some b =>
    match b.error with
    | none => "HTTP " ++ toString resp.statusCode ++ ": " ++ resp.jsonBody
    | some err =>
      let parts := ["HTTP " ++ toString resp.statusCode]
        ++ (match truthyNat err.code with
            | some c => ["code " ++ toString c]
            | none => [])
        ++ (match truthyNat err.error_subcode with
            | some c => ["subcode " ++ toString c]
            | none => [])
      let msg :=
        match truthyStr err.error_user_msg with
        | some m => m
        | none =>
          match truthyStr err.message with
          | some m => m
          | none => ""
      "Instagram publish failed (" ++ String.intercalate (", ") parts ++ "): " ++ msg

/-- The truthy `resp.body?.id` of the source (part_000 line 42 and 118). -/
def truthyBodyId (r : FullResponse) : Option String :=
  match r.body with
  | none => none
  | some b =>
    match b.id with
    | none => none
    | some s => if s = "" then none else some s

/-- The success test `statusCode in [200,300) && body?.id` shared by the
publish retry loop (part_000 line 42) and the image container attempt
(part_000 line 118): returns the id on success. -/
def successId (r : FullResponse) : Option String :=
  if 200 ≤ r.statusCode ∧ r.statusCode < 300 then truthyBodyId r else none

/-! ## Container publish with retry
(`publishIgContainerWithRetry`, part_000 lines 29-57) -/

inductive PubOutcome where
  | ok (postId : String)
  | err (msg : String)
deriving DecidableEq

/-- The fixed backoff table of part_000 line 36. -/
def igDelays : List Nat := [1000, 2000, 3000, 4000, 5000]

/-- One state of the retry loop: `attempt` indexes the oracle of publish
call responses; `remDelays` is `delays.drop attempt`.  The returned list
is the sequence of backoff delays actually slept. -/
def publishGo (resp : Nat → FullResponse) : Nat → List Nat → PubOutcome × List Nat
  | attempt, remDelays =>
    match successId (resp attempt) with
    | some postId => (PubOutcome.ok postId, [])
    | none =>
      if 400 ≤ (resp attempt).statusCode ∧ (resp attempt).statusCode < 500 then
        (PubOutcome.err (formatIgApiError (resp attempt)), [])
      else
        match remDelays with
        | [] => (PubOutcome.err (formatIgApiError (resp attempt)), [])
        | d :: rest =>
          let p := publishGo resp (attempt + 1) rest
          (p.1, d :: p.2)

/-- `publishIgContainerWithRetry` (part_000 lines 29-57), as a function of
the oracle of publish-call responses. -/
def publishIgContainerWithRetry (resp : Nat → FullResponse) : PubOutcome × List Nat :=
  publishGo resp 0 igDelays

/-- A response that is neither a success (2xx carrying a truthy id) nor a
permanent client error (status in [400,500)): the loop retries on it. -/
def isTransient (r : FullResponse) : Prop :=
  successId r = none ∧ ¬(400 ≤ r.statusCode ∧ r.statusCode < 500)

instance (r : FullResponse) : Decidable (isTransient r) := by
  unfold isTransient
  infer_instance

theorem publishGo_success {resp : Nat → FullResponse} {a : Nat} {rem : List Nat}
    {postId : String} (h : successId (resp a) = some postId) :
    publishGo resp a rem = (PubOutcome.ok postId, []) := by
  cases rem <;> simp [publishGo, h]

theorem publishGo_perm {resp : Nat → FullResponse} {a : Nat} {rem : List Nat}
    (h : successId (resp a) = none) (h4 : 400 ≤ (resp a).statusCode)
    (h5 : (resp a).statusCode < 500) :
    publishGo resp a rem = (PubOutcome.err (formatIgApiError (resp a)), []) := by
  cases rem <;> simp [publishGo, h, h4, h5]

theorem publishGo_step {resp : Nat → FullResponse} {a : Nat} {d : Nat} {rest : List Nat}
    (h : successId (resp a) = none)
    (h4 : ¬(400 ≤ (resp a).statusCode ∧ (resp a).statusCode < 500)) :
    publishGo resp a (d :: rest)
      = ((publishGo resp (a + 1) rest).1, d :: (publishGo resp (a + 1) rest).2) := by
  simp [publishGo, h, h4]

theorem publishGo_exhaust {resp : Nat → FullResponse} {a : Nat}
    (h : successId (resp a) = none)
    (h4 : ¬(400 ≤ (resp a).statusCode ∧ (resp a).statusCode < 500)) :
    publishGo resp a [] = (PubOutcome.err (formatIgApiError (resp a)), []) := by
  simp [publishGo, h, h4]

theorem publishGo_skip {resp : Nat → FullResponse} :
    ∀ (k a : Nat) (rem : List Nat), k ≤ rem.length →
    (∀ j, j < k → isTransient (resp (a + j))) →
    publishGo resp a rem
      = ((publishGo resp (a + k) (rem.drop k)).1,
         rem.take k ++ (publishGo resp (a + k) (rem.drop k)).2) := by
  intro k
  induction k with
  | zero => intro a rem _ _; simp
  | succ k ih =>
    intro a rem hlen htrans
    match rem with
    | [] => simp at hlen
    | d :: rest =>
      have h0 : isTransient (resp a) := by simpa using htrans 0 (by omega)
      rw [publishGo_step h0.1 h0.2]
      have hrec := ih (a + 1) rest (by simpa using hlen)
        (fun j hj => by
          have := htrans (j + 1) (by omega)
          have harith : a + (j + 1) = a + 1 + j := by omega
          rwa [harith] at this)
      rw [hrec]
      have harith : a + 1 + k = a + (k + 1) := by omega
      simp [harith]

theorem publish_all_transient {resp : Nat → FullResponse}
    (h : ∀ j, j ≤ 5 → isTransient (resp j)) :
    publishIgContainerWithRetry resp
      = (PubOutcome.err (formatIgApiError (resp 5)), igDelays) := by
  unfold publishIgContainerWithRetry
  rw [publishGo_skip 5 0 igDelays (by simp [igDelays])
    (fun j hj => by simpa using h j (by omega))]
  have h5 := h 5 (by omega)
  rw [show (0 : Nat) + 5 = 5 from rfl]
  rw [show igDelays.drop 5 = [] from rfl]
  rw [publishGo_exhaust h5.1 h5.2]
  simp [igDelays]

/-- Claim C2: the container-publish operation succeeds immediately on a
2xx response carrying an id; fails immediately without any retry on a
status in [400,500); otherwise retries with exactly the fixed backoff
delays 1000..5000 ms in order (six calls total), failing with the last
response's formatted detail once the delays are exhausted. -/
theorem claim_C2_publish_retry_policy (resp : Nat → FullResponse) :
    (∀ postId, successId (resp 0) = some postId →
      publishIgContainerWithRetry resp = (PubOutcome.ok postId, [])) ∧
    (successId (resp 0) = none → 400 ≤ (resp 0).statusCode → (resp 0).statusCode < 500 →
      publishIgContainerWithRetry resp
        = (PubOutcome.err (formatIgApiError (resp 0)), [])) ∧
    (∀ k postId, k ≤ 5 → (∀ j, j < k → isTransient (resp j)) →
      successId (resp k) = some postId →
      publishIgContainerWithRetry resp = (PubOutcome.ok postId, igDelays.take k)) ∧
    (∀ k, k ≤ 5 → (∀ j, j < k → isTransient (resp j)) →
      successId (resp k) = none → 400 ≤ (resp k).statusCode → (resp k).statusCode < 500 →
      publishIgContainerWithRetry resp
        = (PubOutcome.err (formatIgApiError (resp k)), igDelays.take k)) ∧
    ((∀ j, j ≤ 5 → isTransient (resp j)) →
      publishIgContainerWithRetry resp
        = (PubOutcome.err (formatIgApiError (resp 5)), igDelays)) := by
  refine ⟨?_, ?_, ?_, ?_, publish_all_transient⟩
  · intro postId h
    exact publishGo_success h
  · intro h h4 h5
    exact publishGo_perm h h4 h5
  · intro k postId hk ht hs
    unfold publishIgContainerWithRetry
    rw [publishGo_skip k 0 igDelays (by simp [igDelays]; omega)
      (fun j hj => by simpa using ht j hj)]
    rw [publishGo_success (by simpa using hs)]
    simp
  · intro k hk ht hs h4 h5
    unfold publishIgContainerWithRetry
    rw [publishGo_skip k 0 igDelays (by simp [igDelays]; omega)
      (fun j hj => by simpa using ht j hj)]
    rw [publishGo_perm (by simpa using hs) (by simpa using h4) (by simpa using h5)]
    simp

/-- Claim C2 witness: 503 returned five times followed by 200-with-id
succeeds after consuming all five backoff delays in order. -/
theorem claim_C2_witness :
    publishIgContainerWithRetry
        (fun j => if j < 5
          then { statusCode := 503, body := none, wwwAuth := "", jsonBody := "x" }
          else { statusCode := 200,
                 body := some { id := some ("post1"), error := none },
                 wwwAuth := "", jsonBody := "x" })
      = (PubOutcome.ok ("post1"), [1000, 2000, 3000, 4000, 5000]) := by
  have h := (claim_C2_publish_retry_policy
    (fun j => if j < 5
      then { statusCode := 503, body := none, wwwAuth := "", jsonBody := "x" }
      else { statusCode := 200,
             body := some { id := some ("post1"), error := none },
             wwwAuth := "", jsonBody := "x" })).2.2.1
    5 ("post1") (by omega) (by decide) (by decide)
  simpa [igDelays] using h

/-- Claim C10: a response with a 2xx status but no truthy id in the body
is neither a success nor a permanent failure: it is retried like a
transient failure, and if every attempt returns such a response the
operation fails with the formatted detail of the last response. -/
theorem claim_C10_2xx_without_id (resp : Nat → FullResponse) :
    ((∀ j, j ≤ 5 → 200 ≤ (resp j).statusCode ∧ (resp j).statusCode < 300
        ∧ truthyBodyId (resp j) = none) →
      publishIgContainerWithRetry resp
        = (PubOutcome.err (formatIgApiError (resp 5)), igDelays)) ∧
    (∀ postId, 200 ≤ (resp 0).statusCode → (resp 0).statusCode < 300 →
      truthyBodyId (resp 0) = none → successId (resp 1) = some postId →
      publishIgContainerWithRetry resp = (PubOutcome.ok postId, [1000])) := by
  have htrans : ∀ r : FullResponse, 200 ≤ r.statusCode → r.statusCode < 300 →
      truthyBodyId r = none → isTransient r := by
    intro r h2 h3 hid
    constructor
    · simp [successId, hid]
    · omega
  constructor
  · intro h
    exact publish_all_transient
      (fun j hj => htrans _ (h j hj).1 (h j hj).2.1 (h j hj).2.2)
  · intro postId h2 h3 hid hs
    have h0 := htrans _ h2 h3 hid
    unfold publishIgContainerWithRetry
    rw [show igDelays = 1000 :: [2000, 3000, 4000, 5000] from rfl]
    rw [publishGo_step h0.1 h0.2]
    rw [publishGo_success (by simpa using hs)]

/-- Claim C10 witness: a 204-without-body response followed by a
200-with-id response retries exactly once (one 1000ms delay) and then
succeeds. -/
theorem claim_C10_witness :
    publishIgContainerWithRetry
        (fun j => if j = 0
          then { statusCode := 204, body := none, wwwAuth := "", jsonBody := "x" }
          else { statusCode := 200,
                 body := some { id := some ("post2"), error := none },
                 wwwAuth := "", jsonBody := "x" })
      = (PubOutcome.ok ("post2"), [1000]) :=
  (claim_C10_2xx_without_id
    (fun j => if j = 0
      then { statusCode := 204, body := none, wwwAuth := "", jsonBody := "x" }
      else { statusCode := 200,
             body := some { id := some ("post2"), error := none },
             wwwAuth := "", jsonBody := "x" })).2
    ("post2") (by decide) (by decide) (by decide) (by decide)

/-! ## Container status polling (`pollIgContainer`, part_000 lines 200-227) -/

inductive IgStatusCode where
  | EXPIRED
  | ERROR
  | FINISHED
  | IN_PROGRESS
  | PUBLISHED
deriving DecidableEq

/-- The `fields=status_code` response of `getIgContainerStatus`. -/
structure IgStatus where
  status_code : IgStatusCode
  status : Option String
deriving DecidableEq

/-- The string form of a status code, as interpolated by the source's
template literal. -/
def igStatusCodeStr : IgStatusCode → String
  | .EXPIRED => "EXPIRED"
  | .ERROR => "ERROR"
  | .FINISHED => "FINISHED"
  | .IN_PROGRESS => "IN_PROGRESS"
  | .PUBLISHED => "PUBLISHED"

/-- The transcoding-guidance error raised on ERROR/EXPIRED
(part_000 lines 218-222); `status.status || status.status_code`. -/
def transcodeFailMsg (s : IgStatus) : String :=
  "Instagram Reel processing failed: "
    ++ (match truthyStr s.status with
        | some t => t
        | none => igStatusCodeStr s.status_code)
    ++ ". Ensure the video URL is publicly accessible and the video meets Instagram Reels requirements (MP4 H.264, max 5 Mbps bitrate, max 90s, 9:16 aspect ratio recommended)."

/-- The timeout error raised after exhausting all polls
(part_000 line 226). -/
def pollTimeoutMsg : String :=
  "Instagram Reel processing timed out after 5 minutes of polling"

/-- One state of the poll loop: `attempt` indexes the oracle of status
responses, `rem` is the number of polls still allowed.  Each iteration
sleeps 10000 ms and then polls once; the returned list records the slept
delays, so its length is the number of status queries made. -/
def pollGo (st : Nat → IgStatus) : Nat → Nat → Except String Unit × List Nat
  | _, 0 => (Except.error pollTimeoutMsg, [])
  | attempt, rem + 1 =>
    match (st attempt).status_code with
    | .FINISHED => (Except.ok (), [10000])
    | .ERROR => (Except.error (transcodeFailMsg (st attempt)), [10000])
    | .EXPIRED => (Except.error (transcodeFailMsg (st attempt)), [10000])
    | _ =>
      let p := pollGo st (attempt + 1) rem
      (p.1, 10000 :: p.2)

/-- `pollIgContainer` (part_000 lines 200-227): up to 30 polls at
10-second intervals, as a function of the oracle of status responses. -/
def pollIgContainer (st : Nat → IgStatus) : Except String Unit × List Nat :=
  pollGo st 0 30

/-- A status on which the loop keeps polling (neither FINISHED nor
ERROR/EXPIRED: i.e. IN_PROGRESS or PUBLISHED). -/
def pollContinues (s : IgStatus) : Prop :=
  s.status_code ≠ .FINISHED ∧ s.status_code ≠ .ERROR ∧ s.status_code ≠ .EXPIRED

instance (s : IgStatus) : Decidable (pollContinues s) := by
  unfold pollContinues
  infer_instance

theorem pollGo_finished {st : Nat → IgStatus} {a rem : Nat}
    (h : (st a).status_code = .FINISHED) :
    pollGo st a (rem + 1) = (Except.ok (), [10000]) := by
  simp [pollGo, h]

theorem pollGo_fail {st : Nat → IgStatus} {a rem : Nat}
    (h : (st a).status_code = .ERROR ∨ (st a).status_code = .EXPIRED) :
    pollGo st a (rem + 1) = (Except.error (transcodeFailMsg (st a)), [10000]) := by
  rcases h with h | h <;> simp [pollGo, h]

theorem pollGo_continue {st : Nat → IgStatus} {a rem : Nat}
    (h : pollContinues (st a)) :
    pollGo st a (rem + 1)
      = ((pollGo st (a + 1) rem).1, 10000 :: (pollGo st (a + 1) rem).2) := by
  obtain ⟨h1, h2, h3⟩ := h
  cases hc : (st a).status_code <;> simp_all [pollGo]

theorem pollGo_length {st : Nat → IgStatus} :
    ∀ (rem a : Nat), (pollGo st a rem).2.length ≤ rem := by
  intro rem
  induction rem with
  | zero => intro a; simp [pollGo]
  | succ rem ih =>
    intro a
    cases hf : (st a).status_code with
    | FINISHED => rw [pollGo_finished hf]; simp
    | ERROR => rw [pollGo_fail (Or.inl hf)]; simp
    | EXPIRED => rw [pollGo_fail (Or.inr hf)]; simp
    | IN_PROGRESS =>
      rw [pollGo_continue (by simp [pollContinues, hf])]
      have := ih (a + 1)
      simp
      omega
    | PUBLISHED =>
      rw [pollGo_continue (by simp [pollContinues, hf])]
      have := ih (a + 1)
      simp
      omega

theorem pollGo_skip {st : Nat → IgStatus} :
    ∀ (k a rem : Nat), k ≤ rem → (∀ j, j < k → pollContinues (st (a + j))) →
    pollGo st a rem
      = ((pollGo st (a + k) (rem - k)).1,
         List.replicate k 10000 ++ (pollGo st (a + k) (rem - k)).2) := by
  intro k
  induction k with
  | zero => intro a rem _ _; simp
  | succ k ih =>
    intro a rem hle hcont
    obtain ⟨rem', rfl⟩ : ∃ r, rem = r + 1 := ⟨rem - 1, by omega⟩
    have h0 : pollContinues (st a) := by simpa using hcont 0 (by omega)
    rw [pollGo_continue h0]
    have hrec := ih (a + 1) rem' (by omega)
      (fun j hj => by
        have := hcont (j + 1) (by omega)
        have harith : a + (j + 1) = a + 1 + j := by omega
        rwa [harith] at this)
    rw [hrec]
    have h1 : a + 1 + k = a + (k + 1) := by omega
    rw [h1]
    simp only [Nat.succ_sub_succ]
    simp [List.replicate_succ]

set_option maxRecDepth 4000 in
theorem pollTimeoutMsg_ne_transcodeFailMsg (s : IgStatus) :
    pollTimeoutMsg ≠ transcodeFailMsg s := by
  intro h
  have hlen := congrArg String.length h
  unfold pollTimeoutMsg transcodeFailMsg at hlen
  rw [String.length_append, String.length_append] at hlen
  have h1 : ("Instagram Reel processing timed out after 5 minutes of polling").length
      = 62 := by decide
  have h2 : ("Instagram Reel processing failed: ").length = 34 := by decide
  have h3 : (". Ensure the video URL is publicly accessible and the video meets Instagram Reels requirements (MP4 H.264, max 5 Mbps bitrate, max 90s, 9:16 aspect ratio recommended).").length
      = 167 := by decide
  rw [h1, h2, h3] at hlen
  omega

/-- Claim C4: the poll loop queries status at most 30 times at 10-second
intervals; it returns successfully as soon as a poll reports FINISHED,
raises the transcoding-guidance error as soon as a poll reports ERROR or
EXPIRED, and raises a distinct timeout error after 30 polls without a
terminal state.  The returned list records the slept 10000ms delays (one
sleep immediately before each status query), so its length is the number
of queries made. -/
theorem claim_C4_poll_loop (st : Nat → IgStatus) :
    (pollIgContainer st).2.length ≤ 30 ∧
    (∀ k, k < 30 → (∀ j, j < k → pollContinues (st j)) →
      ((st k).status_code = .FINISHED →
        pollIgContainer st = (Except.ok (), List.replicate (k + 1) 10000)) ∧
      ((st k).status_code = .ERROR ∨ (st k).status_code = .EXPIRED →
        pollIgContainer st
          = (Except.error (transcodeFailMsg (st k)), List.replicate (k + 1) 10000))) ∧
    ((∀ j, j < 30 → pollContinues (st j)) →
      pollIgContainer st = (Except.error pollTimeoutMsg, List.replicate 30 10000)) ∧
    (∀ s, pollTimeoutMsg ≠ transcodeFailMsg s) := by
  refine ⟨pollGo_length 30 0, ?_, ?_, pollTimeoutMsg_ne_transcodeFailMsg⟩
  · intro k hk hcont
    have hstep := pollGo_skip k 0 30 (by omega)
      (fun j hj => by simpa using hcont j hj)
    obtain ⟨r, hr⟩ : ∃ r, 30 - k = r + 1 := ⟨30 - k - 1, by omega⟩
    constructor
    · intro hf
      unfold pollIgContainer
      rw [hstep, hr, pollGo_finished (by simpa using hf)]
      simp [List.replicate_succ']
    · intro hf
      unfold pollIgContainer
      rw [hstep, hr, pollGo_fail (by simpa using hf)]
      have : st (0 + k) = st k := by simp
      rw [this]
      simp [List.replicate_succ']
  · intro hcont
    have hstep := pollGo_skip 30 0 30 (by omega)
      (fun j hj => by simpa using hcont j hj)
    unfold pollIgContainer
    rw [hstep]
    simp [pollGo]

/-- Claim C4 witness: with IN_PROGRESS twice and then FINISHED, the loop
succeeds after exactly three queries (three 10-second sleeps). -/
theorem claim_C4_witness :
    pollIgContainer
        (fun j => if j < 2
          then { status_code := IgStatusCode.IN_PROGRESS, status := none }
          else { status_code := IgStatusCode.FINISHED, status := none })
      = (Except.ok (), List.replicate 3 10000) :=
  ((claim_C4_poll_loop
    (fun j => if j < 2
      then { status_code := IgStatusCode.IN_PROGRESS, status := none }
      else { status_code := IgStatusCode.FINISHED, status := none })).2.1
    2 (by omega) (by decide)).1 (by decide)

/-! ## String inclusion (JS `String.prototype.includes`) -/

/-- `pat` occurs at the start of `s`. -/
def startsWithSeq : List Char → List Char → Bool
  | _, [] => true
  | [], _ :: _ => false
  | c :: s, p :: ps => decide (c = p) && startsWithSeq s ps

/-- `pat` occurs somewhere inside `s` (JS `s.includes(pat)`): scan every
position of `s` for a match. -/
def containsSeq : List Char → List Char → Bool
  | [], pat => startsWithSeq [] pat
  | c :: rest, pat => startsWithSeq (c :: rest) pat || containsSeq rest pat

/-- JS `s.includes(pat)` on Lean strings. -/
def includesStr (s pat : String) : Bool := containsSeq s.data pat.data

/-- JS `s.toLowerCase()` (ASCII-adequate model). -/
def strLower (s : String) : String := s.map Char.toLower

theorem startsWithSeq_append (pat b : List Char) :
    startsWithSeq (pat ++ b) pat = true := by
  induction pat with
  | nil => cases b <;> rfl
  | cons p ps ih => simp [startsWithSeq, ih]

theorem containsSeq_of_startsWithSeq {s pat : List Char}
    (h : startsWithSeq s pat = true) : containsSeq s pat = true := by
  cases s with
  | nil => simpa [containsSeq] using h
  | cons c rest => simp [containsSeq, h]

theorem containsSeq_append (a pat b : List Char) :
    containsSeq (a ++ pat ++ b) pat = true := by
  induction a with
  | nil =>
    simp only [List.nil_append]
    exact containsSeq_of_startsWithSeq (startsWithSeq_append pat b)
  | cons c a' ih =>
    simp only [List.cons_append]
    simp only [containsSeq, Bool.or_eq_true]
    right
    exact ih

theorem includesStr_of_middle (a pat b : String) :
    includesStr (a ++ pat ++ b) pat = true := by
  unfold includesStr
  rw [String.data_append, String.data_append]
  exact containsSeq_append a.data pat.data b.data

/-! ## Video flow (`handleVideo`, part_000 lines 229-320)

The flow is modelled as a function of a `VideoEnv` holding one oracle
value per remote interaction: `prep` covers `downloadMedia` +
`convertVideo` (steps before the ephemeral registration), `serverStart`
the resolution of `startTempVideoServer`, `createContainer` the reel
container creation, `statuses`/`presps` the oracles fed to the poll and
publish-retry loops, `fbUpload` the settlement of the concurrently
started Facebook video upload promise, `deleteResult` the settlement of
the compensating `deleteFbVideo` call, and `permalink` the permalink
fetch.  The returned event list records, in order, the observable
register / delete / close effects. -/

structure VideoEnv where
  pageId : String
  prep : Except String Unit
  serverStart : Except String Unit
  createContainer : Except String String
  statuses : Nat → IgStatus
  presps : Nat → FullResponse
  fbUpload : Except String String
  deleteResult : Except String Unit
  permalink : Except String String

inductive VidEv where
  | register
  | close
  | deleteCall (fbVideoId : String)
deriving DecidableEq

structure MetaVideoResult where
  instagram_post_id : String
  instagram_permalink : String
  facebook_post_id : String
  facebook_video_id : String
deriving DecidableEq

/-- Steps 4-6 of the video flow (the body of the `try` block,
part_000 lines 268-281): container creation, status polling, publish. -/
def igLegResult (env : VideoEnv) : Except String String :=
  match env.createContainer with
  | .error e => .error e
  | .ok _cid =>
    match (pollIgContainer env.statuses).1 with
    | .error e => .error e
    | .ok _ =>
      match (publishIgContainerWithRetry env.presps).1 with
      | .ok postId => .ok postId
      | .err m => .error m

/-- The guidance message of part_000 lines 293-298. -/
def carouselGuidance (msg : String) : String :=
  "Instagram rejected the video as a Reel. The video likely exceeds Instagram Reels requirements (max 5 Mbps bitrate, H.264 High profile, max 90s duration). Please re-encode the source video to a lower bitrate before posting. (Original error: "
    ++ msg ++ ")"

/-- The catch-block message test of part_000 line 292:
`msg.includes('2207089') || msg.toLowerCase().includes('carousel')`. -/
def msgIndicatesCarousel (msg : String) : Bool :=
  includesStr msg ("2207089") || includesStr (strLower msg) ("carousel")

/-- The error actually re-raised by the catch block. -/
def transformVideoError (msg : String) : String :=
  if msgIndicatesCarousel msg then carouselGuidance msg else msg

/-- `handleVideo` (part_000 lines 229-320) from step 2 on (the steps the
claims concern; the unconditional download + transcode is folded into
`env.prep`).  Mirrors the source's try/catch/finally: on an IG-leg
failure the concurrently started FB upload is awaited with errors
ignored, a compensating delete is issued iff it produced an id, the
delete's own outcome (`env.deleteResult`) is ignored, the original error
is re-raised (possibly replaced by the carousel guidance), and the
ephemeral file is closed on every exit path of the leg. -/
def handleVideo (env : VideoEnv) : Except String MetaVideoResult × List VidEv :=
  match env.prep with
  | .error e => (.error e, [])
  | .ok _ =>
    match env.serverStart with
    | .error e => (.error e, [])
    | .ok _ =>
      match igLegResult env with
      | .error e =>
        let delev : List VidEv :=
          match env.fbUpload with
          | .ok fbId => [.deleteCall fbId]
          | .error _ => []
        (.error (transformVideoError e), .register :: delev ++ [.close])
      | .ok igPostId =>
        match env.fbUpload with
        | .error e => (.error e, [.register, .close])
        | .ok fbId =>
          match env.permalink with
          | .error e => (.error e, [.register, .close])
          | .ok pl =>
            (.ok { instagram_post_id := igPostId,
                   instagram_permalink := pl,
                   facebook_post_id := env.pageId ++ "_" ++ fbId,
                   facebook_video_id := fbId },
             [.register, .close])

/-- The delete calls recorded in a video-flow event trace. -/
def deleteCallsOf (evs : List VidEv) : List String :=
  evs.filterMap fun e =>
    match e with
    | .deleteCall fbId => some fbId
    | _ => none

theorem includesStr_self (s : String) : includesStr s s = true := by
  have h := includesStr_of_middle ("") s ("")
  have he : ("" : String) ++ s ++ "" = s := by simp
  rwa [he] at h

/-- Claim C1: on any failure of the IG leg (container creation, polling,
or publish), the video flow awaits the concurrent FB upload ignoring
errors, issues exactly one delete call iff that upload produced an id,
swallows the delete's own outcome, and re-raises the original failure,
replaced by the re-encode guidance (which still contains the original
text) exactly when the message contains '2207089' or 'carousel'
case-insensitively; a failure before any upload id exists issues zero
delete calls. -/
theorem claim_C1_video_compensation (env : VideoEnv) (e : String)
    (hprep : env.prep = .ok ()) (hstart : env.serverStart = .ok ())
    (hleg : igLegResult env = .error e) :
    (∀ fbId, env.fbUpload = .ok fbId →
      deleteCallsOf (handleVideo env).2 = [fbId]) ∧
    (∀ m, env.fbUpload = .error m →
      deleteCallsOf (handleVideo env).2 = []) ∧
    (handleVideo env).1 = .error (transformVideoError e) ∧
    (∀ d, handleVideo { env with deleteResult := d } = handleVideo env) ∧
    (msgIndicatesCarousel e = true → transformVideoError e = carouselGuidance e) ∧
    (msgIndicatesCarousel e = false → transformVideoError e = e) ∧
    includesStr (transformVideoError e) e = true := by
  refine ⟨?_, ?_, ?_, ?_, ?_, ?_, ?_⟩
  · intro fbId hfb
    simp [handleVideo, hprep, hstart, hleg, hfb, deleteCallsOf]
  · intro m hfb
    simp [handleVideo, hprep, hstart, hleg, hfb, deleteCallsOf]
  · simp [handleVideo, hprep, hstart, hleg]
  · intro d; rfl
  · intro h; simp [transformVideoError, h]
  · intro h; simp [transformVideoError, h]
  · by_cases h : msgIndicatesCarousel e = true
    · simp only [transformVideoError, if_pos h, carouselGuidance]
      exact includesStr_of_middle _ _ _
    · simp only [transformVideoError, if_neg h]
      exact includesStr_self e

/-- Claim C1 witness: container creation fails after the FB upload
resolved with id `fb9` — exactly one delete call for `fb9` is recorded. -/
theorem claim_C1_witness :
    deleteCallsOf (handleVideo
      { pageId := "pg", prep := .ok (), serverStart := .ok (),
        createContainer := .error ("boom"),
        statuses := fun _ => { status_code := IgStatusCode.FINISHED, status := none },
        presps := fun _ =>
          { statusCode := 200,
            body := some { id := some ("p"), error := none },
            wwwAuth := "", jsonBody := "x" },
        fbUpload := .ok ("fb9"), deleteResult := .ok (),
        permalink := .ok ("url") }).2 = ["fb9"] :=
  (claim_C1_video_compensation
    { pageId := "pg", prep := .ok (), serverStart := .ok (),
      createContainer := .error ("boom"),
      statuses := fun _ => { status_code := IgStatusCode.FINISHED, status := none },
      presps := fun _ =>
        { statusCode := 200,
          body := some { id := some ("p"), error := none },
          wwwAuth := "", jsonBody := "x" },
      fbUpload := .ok ("fb9"), deleteResult := .ok (),
      permalink := .ok ("url") } ("boom") rfl rfl rfl).1 ("fb9") rfl

theorem handleVideo_trace_cases (env : VideoEnv) :
    (handleVideo env).2 = [] ∨ (handleVideo env).2 = [VidEv.register, VidEv.close]
      ∨ ∃ i, (handleVideo env).2 = [VidEv.register, VidEv.deleteCall i, VidEv.close] := by
  rcases hp : env.prep with m | u
  · left; simp [handleVideo, hp]
  · rcases hs : env.serverStart with m | u2
    · left; simp [handleVideo, hp, hs]
    · rcases hleg : igLegResult env with e | pid
      · rcases hfb : env.fbUpload with m | fbId
        · right; left; simp [handleVideo, hp, hs, hleg, hfb]
        · right; right; exact ⟨fbId, by simp [handleVideo, hp, hs, hleg, hfb]⟩
      · rcases hfb : env.fbUpload with m | fbId
        · right; left; simp [handleVideo, hp, hs, hleg, hfb]
        · rcases hpl : env.permalink with m | pl
          · right; left; simp [handleVideo, hp, hs, hleg, hfb, hpl]
          · right; left; simp [handleVideo, hp, hs, hleg, hfb, hpl]

/-- Claim C5: whenever the video flow registers a buffer on the ephemeral
endpoint (i.e. download/transcode and the server lookup succeeded), the
registration happens exactly once and the served file is closed exactly
once, after the leg's other effects, on every exit path; when the flow
fails before registration the trace is empty, so a buffer never remains
registered after the video leg finishes. -/
theorem claim_C5_ephemeral_cleanup (env : VideoEnv) :
    (env.prep = .ok () → env.serverStart = .ok () →
      ∃ mid, (handleVideo env).2 = VidEv.register :: mid ++ [VidEv.close] ∧
        ∀ ev ∈ mid, ev ≠ VidEv.register ∧ ev ≠ VidEv.close) ∧
    ((handleVideo env).2.count VidEv.register ≤ 1 ∧
      (handleVideo env).2.count VidEv.close
        = (handleVideo env).2.count VidEv.register) ∧
    (∀ m, env.prep = .error m → (handleVideo env).2 = []) ∧
    (∀ m, env.serverStart = .error m → (handleVideo env).2 = []) := by
  refine ⟨?_, ?_, ?_, ?_⟩
  · intro hprep hstart
    rcases hleg : igLegResult env with e | pid
    · rcases hfb : env.fbUpload with m | fbId
      · exact ⟨[], by simp [handleVideo, hprep, hstart, hleg, hfb], by simp⟩
      · refine ⟨[VidEv.deleteCall fbId],
          by simp [handleVideo, hprep, hstart, hleg, hfb], by simp⟩
    · rcases hfb : env.fbUpload with m | fbId
      · exact ⟨[], by simp [handleVideo, hprep, hstart, hleg, hfb], by simp⟩
      · rcases hpl : env.permalink with m | pl
        · exact ⟨[], by simp [handleVideo, hprep, hstart, hleg, hfb, hpl], by simp⟩
        · exact ⟨[], by simp [handleVideo, hprep, hstart, hleg, hfb, hpl], by simp⟩
  · rcases handleVideo_trace_cases env with h | h | ⟨i, h⟩ <;>
      simp [h, List.count_cons]
  · intro m hm
    simp [handleVideo, hm]
  · intro m hm
    rcases hp : env.prep with m2 | u
    · simp [handleVideo, hp]
    · simp [handleVideo, hp, hm]

/-- Claim C5 witness: a concrete successful registration shows the
register/close bracketing. -/
theorem claim_C5_witness :
    ∃ mid, (handleVideo
      { pageId := "pg", prep := .ok (), serverStart := .ok (),
        createContainer := .error ("boom"),
        statuses := fun _ => { status_code := IgStatusCode.FINISHED, status := none },
        presps := fun _ =>
          { statusCode := 200,
            body := some { id := some ("p"), error := none },
            wwwAuth := "", jsonBody := "x" },
        fbUpload := .error ("net"), deleteResult := .ok (),
        permalink := .ok ("url") }).2 = VidEv.register :: mid ++ [VidEv.close] ∧
      ∀ ev ∈ mid, ev ≠ VidEv.register ∧ ev ≠ VidEv.close :=
  (claim_C5_ephemeral_cleanup
    { pageId := "pg", prep := .ok (), serverStart := .ok (),
      createContainer := .error ("boom"),
      statuses := fun _ => { status_code := IgStatusCode.FINISHED, status := none },
      presps := fun _ =>
        { statusCode := 200,
          body := some { id := some ("p"), error := none },
          wwwAuth := "", jsonBody := "x" },
      fbUpload := .error ("net"), deleteResult := .ok (),
      permalink := .ok ("url") }).1 rfl rfl

/-! ## Image flow (`handleImage`, part_000 lines 99-196)

Modelled as a function of an `ImageEnv` with one oracle value per remote
interaction.  The event trace records every outbound call of the flow in
order: the initial container attempt, the fallback cycle's download /
transcode / unpublished-photo upload / hosted-URL read / container
retry, and the step-4 upload-by-URL. -/

structure ImageEnv where
  containerResp : FullResponse
  download : Except String Unit
  convert : Except String Unit
  fbPhotoUploadBuf : Except String String
  photoImages : Except String (Option String)
  retryCreate : Except String String
  presps : Nat → FullResponse
  fbPhotoFromUrl : Except String String
  feedPost : Except String String
  permalink : Except String String

inductive ImgEv where
  | containerCreateCall
  | downloadCall
  | transcodeCall
  | fbUploadBufCall
  | imagesCall
  | retryCreateCall
  | fbUploadUrlCall
deriving DecidableEq

structure MetaImageResult where
  instagram_post_id : String
  instagram_permalink : String
  facebook_post_id : String
  facebook_photo_id : String
deriving DecidableEq

/-- `containerResp.body?.error?.message || ''` (part_000 line 123). -/
def igBodyErrMessage (r : FullResponse) : String :=
  match r.body with
  | none => ""
  | some b =>
    match b.error with
    | none => ""
    | some err =>
      match err.message with
      | none => ""
      | some m => m

/-- The unsupported-format signature test of part_000 lines 122-125: the
signature is looked for in `wwwAuth ++ ' ' ++ bodyMsg`, i.e. in both the
`www-authenticate` header and the body's error message. -/
def imgFormatError (r : FullResponse) : Bool :=
  includesStr (r.wwwAuth ++ " " ++ igBodyErrMessage r)
    ("Only photo or video can be accepted")

/-- The immediate failure message of part_000 lines 128-130. -/
def imgContainerFailMsg (r : FullResponse) : String :=
  "Instagram container creation failed (HTTP " ++ toString r.statusCode ++ "): "
    ++ (if igBodyErrMessage r = "" then r.jsonBody else igBodyErrMessage r)

/-- Steps 5-6 of the image flow (part_000 lines 180-195): feed post then
permalink. -/
def imageFinish (env : ImageEnv) (igPostId fbPhotoId : String)
    (evs : List ImgEv) : Except String MetaImageResult × List ImgEv :=
  match env.feedPost with
  | .error e => (.error e, evs)
  | .ok fbPostId =>
    match env.permalink with
    | .error e => (.error e, evs)
    | .ok pl =>
      (.ok { instagram_post_id := igPostId,
             instagram_permalink := pl,
             facebook_post_id := fbPostId,
             facebook_photo_id := fbPhotoId }, evs)

/-- Steps 3-6 of the image flow from the publish on (part_000 lines
167-195): publish with retry, then the step-4 upload-by-URL when no photo
was uploaded during conversion (`if (!fbPhotoId)`), then finish. -/
def imagePublishOn (env : ImageEnv) (fbPhotoId? : Option String)
    (evs : List ImgEv) : Except String MetaImageResult × List ImgEv :=
  match (publishIgContainerWithRetry env.presps).1 with
  | .err m => (.error m, evs)
  | .ok igPostId =>
    match fbPhotoId? with
    | some pid => imageFinish env igPostId pid evs
    | none =>
      match env.fbPhotoFromUrl with
      | .error e => (.error e, evs ++ [.fbUploadUrlCall])
      | .ok pid => imageFinish env igPostId pid (evs ++ [.fbUploadUrlCall])

/-- `handleImage` (part_000 lines 99-196): try the container with the
original URL; on a non-success response look for the format signature; if
absent fail immediately, else run exactly one
download / convert / upload / read-URL / retry cycle, a second failure
propagating. -/
def handleImage (env : ImageEnv) : Except String MetaImageResult × List ImgEv :=
  match successId env.containerResp with
  | some _cid => imagePublishOn env none [.containerCreateCall]
  | none =>
    if imgFormatError env.containerResp then
      match env.download with
      | .error e => (.error e, [.containerCreateCall, .downloadCall])
      | .ok _ =>
        match env.convert with
        | .error e =>
          (.error e, [.containerCreateCall, .downloadCall, .transcodeCall])
        | .ok _ =>
          match env.fbPhotoUploadBuf with
          | .error e =>
            (.error e, [.containerCreateCall, .downloadCall, .transcodeCall,
              .fbUploadBufCall])
          | .ok fbPhotoId =>
            match env.photoImages with
            | .error e =>
              (.error e, [.containerCreateCall, .downloadCall, .transcodeCall,
                .fbUploadBufCall, .imagesCall])
            | .ok none =>
              (.error ("Could not retrieve CDN URL for converted image from Facebook"),
               [.containerCreateCall, .downloadCall, .transcodeCall,
                 .fbUploadBufCall, .imagesCall])
            | .ok (some _cdnUrl) =>
              match env.retryCreate with
              | .error e =>
                (.error e, [.containerCreateCall, .downloadCall, .transcodeCall,
                  .fbUploadBufCall, .imagesCall, .retryCreateCall])
              | .ok _cid2 =>
                imagePublishOn env (some fbPhotoId)
                  [.containerCreateCall, .downloadCall, .transcodeCall,
                    .fbUploadBufCall, .imagesCall, .retryCreateCall]
    else
      (.error (imgContainerFailMsg env.containerResp), [.containerCreateCall])

/-- Number of transcoder invocations recorded in an image-flow trace. -/
def transcodeCallsOf (evs : List ImgEv) : Nat := evs.count ImgEv.transcodeCall

theorem imageFinish_trace (env : ImageEnv) (i p : String) (evs : List ImgEv) :
    (imageFinish env i p evs).2 = evs := by
  rcases hf : env.feedPost with m | f
  · simp [imageFinish, hf]
  · rcases hp : env.permalink with m | pl <;> simp [imageFinish, hf, hp]

theorem imagePublishOn_trace (env : ImageEnv) (p : Option String) (evs : List ImgEv) :
    (imagePublishOn env p evs).2 = evs
      ∨ (imagePublishOn env p evs).2 = evs ++ [ImgEv.fbUploadUrlCall] := by
  rcases hpub : (publishIgContainerWithRetry env.presps).1 with i | m
  · rcases p with _ | pid
    · rcases hu : env.fbPhotoFromUrl with m2 | pid2
      · right; simp [imagePublishOn, hpub, hu]
      · right; simp [imagePublishOn, hpub, hu, imageFinish_trace]
    · left; simp [imagePublishOn, hpub, imageFinish_trace]
  · left; simp [imagePublishOn, hpub]

/-- Claim C3: when the first container attempt fails, the
unsupported-format signature is looked for in the `www-authenticate`
header and the body's error message together; absent → immediate failure
with the raw detail and zero transcoder invocations; present → exactly
one re-encode-upload-and-retry cycle (download, convert, upload, read
hosted URL, retry container creation), a second failure propagating with
no further fallback. -/
theorem claim_C3_image_fallback (env : ImageEnv)
    (hfail : successId env.containerResp = none) :
    (imgFormatError env.containerResp = false →
      (handleImage env).1 = .error (imgContainerFailMsg env.containerResp) ∧
      (handleImage env).2 = [ImgEv.containerCreateCall] ∧
      transcodeCallsOf (handleImage env).2 = 0) ∧
    (imgFormatError env.containerResp = true →
      transcodeCallsOf (handleImage env).2 ≤ 1 ∧
      (env.download = .ok () → transcodeCallsOf (handleImage env).2 = 1) ∧
      (∀ e pid cdnUrl, env.download = .ok () → env.convert = .ok () →
        env.fbPhotoUploadBuf = .ok pid → env.photoImages = .ok (some cdnUrl) →
        env.retryCreate = .error e →
        (handleImage env).1 = .error e ∧
        (handleImage env).2 = [ImgEv.containerCreateCall, ImgEv.downloadCall,
          ImgEv.transcodeCall, ImgEv.fbUploadBufCall, ImgEv.imagesCall,
          ImgEv.retryCreateCall])) := by
  constructor
  · intro h
    refine ⟨?_, ?_, ?_⟩ <;> simp [handleImage, hfail, h, transcodeCallsOf]
  · intro h
    have hcnt : env.download ≠ .ok () ∧ transcodeCallsOf (handleImage env).2 = 0
        ∨ transcodeCallsOf (handleImage env).2 = 1 := by
      rcases hd : env.download with m | u
      · left
        have ht : (handleImage env).2 = [ImgEv.containerCreateCall, ImgEv.downloadCall] := by
          simp [handleImage, hfail, h, hd]
        rw [ht]
        exact ⟨by simp [hd], by decide⟩
      · right
        rcases hc : env.convert with m | u2
        · have ht : (handleImage env).2 = [ImgEv.containerCreateCall,
              ImgEv.downloadCall, ImgEv.transcodeCall] := by
            simp [handleImage, hfail, h, hd, hc]
          rw [ht]; decide
        · rcases hup : env.fbPhotoUploadBuf with m | pid
          · have ht : (handleImage env).2 = [ImgEv.containerCreateCall,
                ImgEv.downloadCall, ImgEv.transcodeCall, ImgEv.fbUploadBufCall] := by
              simp [handleImage, hfail, h, hd, hc, hup]
            rw [ht]; decide
          · rcases him : env.photoImages with m | ocdn
            · have ht : (handleImage env).2 = [ImgEv.containerCreateCall,
                  ImgEv.downloadCall, ImgEv.transcodeCall, ImgEv.fbUploadBufCall,
                  ImgEv.imagesCall] := by
                simp [handleImage, hfail, h, hd, hc, hup, him]
              rw [ht]; decide
            · rcases ocdn with _ | cdnUrl
              · have ht : (handleImage env).2 = [ImgEv.containerCreateCall,
                    ImgEv.downloadCall, ImgEv.transcodeCall, ImgEv.fbUploadBufCall,
                    ImgEv.imagesCall] := by
                  simp [handleImage, hfail, h, hd, hc, hup, him]
                rw [ht]; decide
              · rcases hr : env.retryCreate with m | cid2
                · have ht : (handleImage env).2 = [ImgEv.containerCreateCall,
                      ImgEv.downloadCall, ImgEv.transcodeCall, ImgEv.fbUploadBufCall,
                      ImgEv.imagesCall, ImgEv.retryCreateCall] := by
                    simp [handleImage, hfail, h, hd, hc, hup, him, hr]
                  rw [ht]; decide
                · have hrw : (handleImage env).2
                      = (imagePublishOn env (some pid)
                          [ImgEv.containerCreateCall, ImgEv.downloadCall,
                            ImgEv.transcodeCall, ImgEv.fbUploadBufCall,
                            ImgEv.imagesCall, ImgEv.retryCreateCall]).2 := by
                    simp [handleImage, hfail, h, hd, hc, hup, him, hr]
                  rcases imagePublishOn_trace env (some pid)
                      [ImgEv.containerCreateCall, ImgEv.downloadCall,
                        ImgEv.transcodeCall, ImgEv.fbUploadBufCall,
                        ImgEv.imagesCall, ImgEv.retryCreateCall] with ht | ht
                  · rw [hrw, ht]; decide
                  · rw [hrw, ht]; decide
    refine ⟨?_, ?_, ?_⟩
    · rcases hcnt with ⟨_, hz⟩ | ho
      · rw [hz]; omega
      · rw [ho]
    · intro hdok
      rcases hcnt with ⟨hne, _⟩ | ho
      · exact absurd hdok hne
      · exact ho
    · intro e pid cdnUrl hd hc hup him hr
      constructor <;> simp [handleImage, hfail, h, hd, hc, hup, him, hr]

/-- The concrete image environment used by the C3 witness: the first
container attempt returns a 400 carrying the format signature in the
body's error message, the fallback cycle runs, and the container retry
fails again. -/
def c3WitnessEnv : ImageEnv :=
  { containerResp :=
      { statusCode := 400,
        body := some
          { id := none,
            error := some
              { code := some 1, error_subcode := none,
                error_user_msg := none,
                message := some ("Only photo or video can be accepted") } },
        wwwAuth := "", jsonBody := "x" },
    download := .ok (), convert := .ok (),
    fbPhotoUploadBuf := .ok ("ph1"),
    photoImages := .ok (some ("cdnurl")),
    retryCreate := .error ("still rejected"),
    presps := fun _ =>
      { statusCode := 200,
        body := some { id := some ("p"), error := none },
        wwwAuth := "", jsonBody := "x" },
    fbPhotoFromUrl := .ok ("ph2"), feedPost := .ok ("fp"),
    permalink := .ok ("url") }

/-- Claim C3 witness: on `c3WitnessEnv` the single cycle runs and the
retry failure propagates. -/
theorem claim_C3_witness :
    (handleImage c3WitnessEnv).1 = .error ("still rejected") ∧
    (handleImage c3WitnessEnv).2 = [ImgEv.containerCreateCall,
      ImgEv.downloadCall, ImgEv.transcodeCall, ImgEv.fbUploadBufCall,
      ImgEv.imagesCall, ImgEv.retryCreateCall] :=
  ((claim_C3_image_fallback c3WitnessEnv (by decide)).2 (by decide)).2.2
    ("still rejected") ("ph1") ("cdnurl") rfl rfl rfl rfl rfl

/-! ## Ephemeral range-serving endpoint
(`parseRange` / `serveBuffer`, part_001 lines 24-74)

A request carries its method, URL, and `Range` header; the header, when
present and of the shape matched by the source regex
`^bytes=(\d+)-(\d*)$`, is modelled by its two capture groups: the start
number and the optional end number (an absent second group — an empty
digit string — is `none`). -/

structure HttpReq where
  method : String
  url : String
  range : Option (Nat × Option Nat)

/-- `parseRange` (part_001 lines 24-31) on the regex capture groups:
`end` defaults to `total - 1`; reject when `start > end` or
`start ≥ total`; clamp `end` to `total - 1`. -/
def parseRange (start : Nat) (endOpt : Option Nat) (total : Nat) :
    Option (Nat × Nat) :=
  let e := match endOpt with
    | some v => v
    | none => total - 1
  if start > e ∨ start ≥ total then none
  else some (start, min e (total - 1))

structure RangeHttpResponse where
  status : Nat
  contentType : Option String
  contentRange : Option String
  contentLength : Option String
  acceptRanges : Option String
  body : List UInt8
deriving DecidableEq

/-- `serveBuffer` (part_001 lines 37-74): HEAD → 200 without body; GET
with a Range header → 206 with the inclusive slice
`buffer.subarray(start, end + 1)` or 416 when the range is unsatisfiable;
GET without Range → 200 with the whole buffer. -/
def serveBuffer (req : HttpReq) (buffer : List UInt8) : RangeHttpResponse :=
  let total := buffer.length
  if req.method = "HEAD" then
    { status := 200, contentType := some ("video/mp4"), contentRange := none,
      contentLength := some (toString total),
      acceptRanges := some ("bytes"), body := [] }
  else
    match req.range with
    | some (start, endOpt) =>
      match parseRange start endOpt total with
      | none =>
        { status := 416, contentType := none,
          contentRange := some ("bytes */" ++ toString total),
          contentLength := none, acceptRanges := none, body := [] }
      | some (s, e) =>
        { status := 206, contentType := some ("video/mp4"),
          contentRange := some ("bytes " ++ toString s ++ "-" ++ toString e
            ++ "/" ++ toString total),
          contentLength := some (toString (e - s + 1)),
          acceptRanges := some ("bytes"),
          body := (buffer.drop s).take (e + 1 - s) }
    | none =>
      { status := 200, contentType := some ("video/mp4"), contentRange := none,
        contentLength := some (toString total),
        acceptRanges := some ("bytes"), body := buffer }

/-- Claim C6: for every GET request with a `bytes=<start>-<end>` header
(end optional, defaulting to the last byte) against a buffer of length N:
if start > end or start ≥ N the response is 416 with
Content-Range `bytes */N`; otherwise it is 206 with Content-Range
`bytes <start>-<min(end,N-1)>/N`, Content-Length
`min(end,N-1) - start + 1`, and a body that is exactly that inclusive
byte slice of the buffer. -/
theorem claim_C6_range_serving (buffer : List UInt8) (start : Nat)
    (endOpt : Option Nat) (url : String) :
    ((start > endOpt.getD (buffer.length - 1) ∨ start ≥ buffer.length) →
      serveBuffer { method := "GET", url := url, range := some (start, endOpt) }
          buffer
        = { status := 416, contentType := none,
            contentRange := some ("bytes */" ++ toString buffer.length),
            contentLength := none, acceptRanges := none, body := [] }) ∧
    (start ≤ endOpt.getD (buffer.length - 1) → start < buffer.length →
      serveBuffer { method := "GET", url := url, range := some (start, endOpt) }
          buffer
        = { status := 206, contentType := some ("video/mp4"),
            contentRange := some ("bytes " ++ toString start ++ "-"
              ++ toString (min (endOpt.getD (buffer.length - 1)) (buffer.length - 1))
              ++ "/" ++ toString buffer.length),
            contentLength := some (toString
              (min (endOpt.getD (buffer.length - 1)) (buffer.length - 1) - start + 1)),
            acceptRanges := some ("bytes"),
            body := (buffer.drop start).take
              (min (endOpt.getD (buffer.length - 1)) (buffer.length - 1) + 1 - start) } ∧
      ((buffer.drop start).take
          (min (endOpt.getD (buffer.length - 1)) (buffer.length - 1) + 1 - start)).length
        = min (endOpt.getD (buffer.length - 1)) (buffer.length - 1) - start + 1 ∧
      (∀ i, i < min (endOpt.getD (buffer.length - 1)) (buffer.length - 1) + 1 - start →
        ((buffer.drop start).take
            (min (endOpt.getD (buffer.length - 1)) (buffer.length - 1) + 1 - start))[i]?
          = buffer[start + i]?)) := by
  have hgetd : (match endOpt with
      | some v => v
      | none => buffer.length - 1) = endOpt.getD (buffer.length - 1) := by
    cases endOpt <;> rfl
  constructor
  · intro h
    simp only [serveBuffer, parseRange]
    rw [if_neg (by simp), hgetd, if_pos h]
  · intro h1 h2
    have hmm : ¬(start > endOpt.getD (buffer.length - 1) ∨ start ≥ buffer.length) := by
      omega
    refine ⟨?_, ?_, ?_⟩
    · simp only [serveBuffer, parseRange]
      rw [if_neg (by simp), hgetd, if_neg hmm]
    · rw [List.length_take, List.length_drop]
      omega
    · intro i hi
      rw [List.getElem?_take]
      rw [if_pos hi]
      rw [List.getElem?_drop]

/-- Claim C6 witness: `bytes=1-3` against a 5-byte buffer yields 206 with
the inclusive slice, and `bytes=9-` against a 2-byte buffer yields 416. -/
theorem claim_C6_witness :
    serveBuffer { method := "GET", url := "/v.mp4", range := some (9, none) }
        ([7, 8] : List UInt8)
      = { status := 416, contentType := none,
          contentRange := some ("bytes */2"),
          contentLength := none, acceptRanges := none, body := [] } :=
  (claim_C6_range_serving ([7, 8] : List UInt8) 9 none ("/v.mp4")).1
    (by decide)

/-! ## Shared-listener interceptor
(`installInterceptor` / `startTempVideoServer`, part_001 lines 95-124,
and the dedicated-listener variant of tempServer.ts lines 43-48)

A handler takes the current registry of active videos (the module-level
`activeVideos` map, modelled as an association list) and a request; it
either serves a response itself or hands the request to the host
application (`WrapResult.host` carries the host handler's result, of an
abstract type `α`).  The server state holds the module-level
`interceptorInstalled` flag and the list of `request` listeners. -/

inductive WrapResult (α : Type) where
  | served (resp : RangeHttpResponse)
  | host (a : α)

abbrev Handler (α : Type) :=
  List (String × List UInt8) → HttpReq → WrapResult α

/-- `TMP_VIDEO_PREFIX` of part_001 line 18. -/
def tmpVideoRoute : String := "/tmp-video/"

/-- The dispatch test of part_001 lines 108-111. -/
def isTmpVideoReq (req : HttpReq) : Bool :=
  req.url.startsWith tmpVideoRoute && (req.method == "GET" || req.method == "HEAD")

/-- The wrapper installed on the server (part_001 lines 106-121): serve a
registered video at `/tmp-video/{filename}`, otherwise pass the request
through unchanged to the original handler. -/
def interceptHandler {α : Type} (orig : Handler α) : Handler α :=
  fun videos req =>
    if isTmpVideoReq req then
      match videos.lookup (req.url.drop (String.length tmpVideoRoute)) with
      | some buffer => WrapResult.served (serveBuffer req buffer)
      | none => orig videos req
    else orig videos req

structure SrvState (α : Type) where
  interceptorInstalled : Bool
  listeners : List (Handler α)

/-- `installInterceptor` (part_001 lines 95-124): a no-op when the
module-level flag is already set; otherwise replace the listeners with
the single wrapper over the first original handler, failing when there is
none. -/
def installInterceptor {α : Type} (st : SrvState α) : Except String (SrvState α) :=
  if st.interceptorInstalled then .ok st
  else
    match st.listeners with
    | [] => .error ("No request handlers found on n8n HTTP server")
    | orig :: _ =>
      .ok { interceptorInstalled := true, listeners := [interceptHandler orig] }

/-- The dedicated-listener variant (tempServer.ts lines 43-48): any
request whose URL is not the serve path or whose method is not GET/HEAD
receives 404; matching requests are served with the same range semantics
(the `Connection: keep-alive` header of that variant is not modelled). -/
def dedicatedHandler (servePath : String) (buffer : List UInt8)
    (req : HttpReq) : RangeHttpResponse :=
  if req.url ≠ servePath ∨ (req.method ≠ "GET" ∧ req.method ≠ "HEAD") then
    { status := 404, contentType := none, contentRange := none,
      contentLength := none, acceptRanges := none, body := [] }
  else
    serveBuffer req buffer

/-- Claim C9: the interceptor is installed at most once per process
lifetime (a second registration is a no-op and interceptors never stack:
after a successful fresh installation the listener list has exactly one
entry), every request that is not a GET/HEAD on a currently registered
video path is passed through unchanged to the pre-existing handler, and
in the dedicated-listener variant such requests receive 404. -/
theorem claim_C9_interceptor (α : Type) :
    (∀ st st' : SrvState α, installInterceptor st = .ok st' →
      installInterceptor st' = .ok st') ∧
    (∀ st st' : SrvState α, installInterceptor st = .ok st' →
      st.interceptorInstalled = false → st'.listeners.length = 1) ∧
    (∀ (orig : Handler α) (videos : List (String × List UInt8)) (req : HttpReq),
      isTmpVideoReq req = false →
      interceptHandler orig videos req = orig videos req) ∧
    (∀ (orig : Handler α) (videos : List (String × List UInt8)) (req : HttpReq),
      videos.lookup (req.url.drop (String.length tmpVideoRoute)) = none →
      interceptHandler orig videos req = orig videos req) ∧
    (∀ (servePath : String) (buffer : List UInt8) (req : HttpReq),
      req.url ≠ servePath ∨ (req.method ≠ "GET" ∧ req.method ≠ "HEAD") →
      dedicatedHandler servePath buffer req
        = { status := 404, contentType := none, contentRange := none,
            contentLength := none, acceptRanges := none, body := [] }) := by
  refine ⟨?_, ?_, ?_, ?_, ?_⟩
  · intro st st' h
    unfold installInterceptor at h ⊢
    by_cases hi : st.interceptorInstalled = true
    · rw [if_pos hi] at h
      injection h with h2
      subst h2
      rw [if_pos hi]
    · rw [if_neg hi] at h
      rcases hl : st.listeners with _ | ⟨orig, rest⟩
      · rw [hl] at h; cases h
      · rw [hl] at h
        injection h with h2
        subst h2
        simp
  · intro st st' h hi
    unfold installInterceptor at h
    rw [if_neg (by simp [hi])] at h
    rcases hl : st.listeners with _ | ⟨orig, rest⟩
    · rw [hl] at h; cases h
    · rw [hl] at h
      injection h with h2
      subst h2
      simp
  · intro orig videos req h
    simp [interceptHandler, h]
  · intro orig videos req h
    by_cases ht : isTmpVideoReq req
    · simp [interceptHandler, ht, h]
    · simp [interceptHandler, ht]
  · intro servePath buffer req h
    simp [dedicatedHandler, h]

/-- Claim C9 witness: installing on a one-listener server and then
installing again leaves the state unchanged; a POST to an application
route passes through; a POST to the dedicated listener gets 404. -/
theorem claim_C9_witness :
    installInterceptor (α := Nat)
        { interceptorInstalled := true,
          listeners := [interceptHandler (fun _ _ => WrapResult.host 7)] }
      = .ok { interceptorInstalled := true,
              listeners := [interceptHandler (fun _ _ => WrapResult.host 7)] } ∧
    interceptHandler (α := Nat) (fun _ _ => WrapResult.host 7) []
        { method := "POST", url := "/rest/workflows", range := none }
      = WrapResult.host 7 ∧
    (dedicatedHandler ("/abc.mp4") [1, 2]
        { method := "POST", url := "/abc.mp4", range := none }).status = 404 := by
  refine ⟨?_, ?_, ?_⟩
  · exact (claim_C9_interceptor Nat).1
      { interceptorInstalled := false,
        listeners := [fun _ _ => WrapResult.host 7] }
      { interceptorInstalled := true,
        listeners := [interceptHandler (fun _ _ => WrapResult.host 7)] } rfl
  · exact (claim_C9_interceptor Nat).2.2.1 _ _ _ (by simp [isTmpVideoReq])
  · rw [(claim_C9_interceptor Nat).2.2.2.2 ("/abc.mp4") [1, 2]
      { method := "POST", url := "/abc.mp4", range := none } (by simp)]
